import Mathlib

/-!
Verification development for the NINA HCI BLE driver (package bluetooth,
build tags nina / nano_rp2040).

Shallow embedding notes:
* Bytes are modelled as `Nat` values; every value written into a buffer is
  reduced `% 256` (the UART delivers `uint8`), and Go arithmetic that is
  performed at width 8 carries an explicit `% 256` in the embedding.
* Go runtime panics (index out of range, slice bounds out of range) are
  modelled by the `Res.panicked` result; the recursive knot
  `handleEventData -> leSetAdvertiseEnable -> sendCommandWithParams -> poll ->
  handleEventData` is cut with a fuel parameter whose exhaustion is the
  distinct result `Res.fuelOut`.
* The external transport (UART) and the wall clock are modelled by an
  explicit environment `Env`: a queue of write outcomes, a queue of byte
  chunks delivered to successive `poll` calls, and a queue of elapsed-seconds
  readings consumed by the command loop's timeout checks.  An exhausted
  queue yields the defaults: writes succeed, no bytes are buffered, and the
  clock reads 4 seconds (past the 3 second command timeout).
* Go `copy(dst, src)` copies `min |dst| |src|` bytes and never panics;
  Go slicing `b[lo:hi]` of a slice panics only when `hi` exceeds the
  capacity or `lo > hi`.  Slicing past the length but within capacity reads
  bytes that are present in the underlying array; in this embedding those
  reads are truncated at the length, which is only ever visible for
  malformed packets shorter than the fixed layout offsets (no theorem below
  depends on the truncated region).
-/

/-- Error values of the driver: `ErrHCITimeout`, `ErrHCIUnknownEvent`,
`ErrHCIUnknown`, a transport write error, and `ErrConnect`. -/
inductive HciErr where
  | timeout
  | unknownEvent
  | unknown
  | io
  | connect
deriving DecidableEq, Repr

/-- Result of running a piece of the driver: a normal result, a Go runtime
panic, or exhaustion of the modelling fuel that cuts the recursive knot. -/
inductive Res (α : Type) where
  | ok : α → Res α
  | panicked : Res α
  | fuelOut : Res α
deriving DecidableEq, Repr

/-- Model of the external world: outcomes of successive `uart.Write` calls,
byte chunks handed to successive `poll` calls, and elapsed-seconds readings
for successive timeout checks of `sendCommandWithParams`. -/
structure Env where
  writes : List Bool
  chunks : List (List Nat)
  clocks : List Nat
deriving DecidableEq, Repr

/-- Pop the outcome of one `uart.Write` call (default: success). -/
def Env.popWrite (e : Env) : Bool × Env :=
  match e.writes with
  | [] => (true, e)
  | w :: ws => (w, { e with writes := ws })

/-- Pop the bytes buffered for one `poll` call (default: none). -/
def Env.popChunk (e : Env) : List Nat × Env :=
  match e.chunks with
  | [] => ([], e)
  | c :: cs => (c, { e with chunks := cs })

/-- Pop one elapsed-seconds reading (default: 4, i.e. past the timeout). -/
def Env.popClock (e : Env) : Nat × Env :=
  match e.clocks with
  | [] => (4, e)
  | c :: cs => (c, { e with clocks := cs })

/-- `leAdvertisingReport` (gap variant of src/unnamed/part_000): the lossy
single-slot advertising report holder. -/
structure AdvData where
  reported : Bool
  status : Nat
  typ : Nat
  peerBdaddrType : Nat
  peerBdaddr : List Nat
  eirLength : Nat
  eirData : List Nat
  rssi : Int
deriving DecidableEq, Repr

/-- `leConnectData`: the lossy single-slot connection state holder. -/
structure ConnectData where
  connected : Bool
  status : Nat
  handle : Nat
  role : Nat
  peerBdaddrType : Nat
  peerBdaddr : List Nat
deriving DecidableEq, Repr

/-- The `hci` struct of src/unnamed/part_000 (minus the uart handle and the
receive buffer, which are threaded explicitly through `pollAux`). -/
structure HciState where
  address : List Nat
  cmdCompleteOpcode : Nat
  cmdCompleteStatus : Nat
  cmdResponse : List Nat
  scanning : Bool
  advData : AdvData
  connectData : ConnectData
deriving DecidableEq, Repr

/-- Zero value of the advertising slot, as produced by `clearAdvData`. -/
def clearedAdv : AdvData :=
  { reported := false, status := 0, typ := 0, peerBdaddrType := 0,
    peerBdaddr := List.replicate 6 0, eirLength := 0,
    eirData := List.replicate 64 0, rssi := 0 }

/-- Zero value of the connection slot, as produced by `clearConnectData`. -/
def clearedConn : ConnectData :=
  { connected := false, status := 0, handle := 0, role := 0,
    peerBdaddrType := 0, peerBdaddr := List.replicate 6 0 }

/-- `clearAdvData` of src/unnamed/part_000. -/
def clearAdvData (st : HciState) : HciState := { st with advData := clearedAdv }

/-- `clearConnectData` of src/unnamed/part_000. -/
def clearConnectData (st : HciState) : HciState := { st with connectData := clearedConn }

/-- The state a fresh `newHCI` produces (Go zero values). -/
def initHci : HciState :=
  { address := List.replicate 6 0, cmdCompleteOpcode := 0, cmdCompleteStatus := 0,
    cmdResponse := [], scanning := false, advData := clearedAdv,
    connectData := clearedConn }

/-- Go `copy(dst, src)`: overwrite the first `min |src| |dst|` entries of
`dst` with those of `src`, keep the rest of `dst`. -/
def copyInto (dst src : List Nat) : List Nat :=
  src.take dst.length ++ dst.drop (min src.length dst.length)

/-- Go `int8(b)` for a byte `b`: two's-complement reinterpretation. -/
def toInt8 (b : Nat) : Int :=
  if b % 256 < 128 then (b % 256 : Int) else (b % 256 : Int) - 256

/-- Result type of the stateful driver fragments. -/
abbrev HRes := Res (HciState × Option HciErr × Env)

/-- `handleEventData` of src/unnamed/part_000 (lines 324-453).  The
`advEnable` parameter is the semantics of the recursive call
`h.leSetAdvertiseEnable(true)` performed on `EVT_DISCONN_COMPLETE`; the
fueled knot below instantiates it with the real definition.  Any Go index
out of range is `Res.panicked`. -/
def handleEventData (advEnable : Env → HciState → HRes)
    (env : Env) (st : HciState) (buf : List Nat) : HRes :=
  match buf.get? 0, buf.get? 1 with
  | some evt, some plen =>
    if evt = 0x05 then
      -- EVT_DISCONN_COMPLETE: return h.leSetAdvertiseEnable(true)
      advEnable env st
    else if evt = 0x08 then
      -- EVT_ENCRYPTION_CHANGE: no-op
      .ok (st, none, env)
    else if evt = 0x0e then
      -- EVT_CMD_COMPLETE: opcode from buf[3]|buf[4]<<8, status from buf[5],
      -- response buf[1:plen+2] when plen > 0 (plen+2 wraps at width 8)
      match buf.get? 3, buf.get? 4, buf.get? 5 with
      | some b3, some b4, some b5 =>
        if plen > 0 then
          let hi := (plen + 2) % 256
          if hi < 1 then .panicked
          else
            .ok ({ st with cmdCompleteOpcode := Nat.lor b3 (b4 <<< 8),
                           cmdCompleteStatus := b5,
                           cmdResponse := (buf.drop 1).take (hi - 1) }, none, env)
        else
          .ok ({ st with cmdCompleteOpcode := Nat.lor b3 (b4 <<< 8),
                         cmdCompleteStatus := b5,
                         cmdResponse := [] }, none, env)
      | _, _, _ => .panicked
    else if evt = 0x0f then
      -- EVT_CMD_STATUS: status from buf[2], opcode from buf[4]|buf[5]<<8
      match buf.get? 2, buf.get? 4, buf.get? 5 with
      | some b2, some b4, some b5 =>
        .ok ({ st with cmdCompleteStatus := b2,
                       cmdCompleteOpcode := Nat.lor b4 (b5 <<< 8),
                       cmdResponse := [] }, none, env)
      | _, _, _ => .panicked
    else if evt = 0x13 then
      -- EVT_NUM_COMP_PKTS: no-op
      .ok (st, none, env)
    else if evt = 0x3e then
      -- EVT_LE_META_EVENT: dispatch on buf[2]
      match buf.get? 2 with
      | none => .panicked
      | some sub =>
        if sub = 0x01 ∨ sub = 0x0a then
          -- LE_META_EVENT_CONN_COMPLETE / ENHANCED_CONNECTION_COMPLETE
          match buf.get? 3, buf.get? 4, buf.get? 5, buf.get? 6, buf.get? 7 with
          | some b3, some b4, some b5, some b6, some b7 =>
            .ok ({ st with connectData :=
                    { connected := true, status := b3,
                      handle := Nat.lor b4 (b5 <<< 8), role := b6,
                      peerBdaddrType := b7,
                      peerBdaddr := copyInto st.connectData.peerBdaddr
                                      ((buf.drop 8).take 6) } }, none, env)
          | _, _, _, _, _ => .panicked
        else if sub = 0x02 then
          -- LE_META_EVENT_ADVERTISING_REPORT
          match buf.get? 3, buf.get? 4, buf.get? 5, buf.get? 12 with
          | some b3, some b4, some b5, some b12 =>
            let a0 : AdvData :=
              { reported := true, status := b3, typ := b4, peerBdaddrType := b5,
                peerBdaddr := copyInto st.advData.peerBdaddr ((buf.drop 6).take 6),
                eirLength := b12, eirData := st.advData.eirData, rssi := 0 }
            -- switch { case int(13+eirLength+1) > len(buf): ... } at width 8
            if (13 + b12 + 1) % 256 > buf.length then
              .ok ({ st with advData := clearedAdv }, none, env)
            else if b12 < 64 then
              let a1 : AdvData :=
                { a0 with eirData := copyInto a0.eirData ((buf.drop 13).take (b12 + 1)) }
              if a1.status = 0x01 then
                match buf.get? (13 + b12) with
                | some rb => .ok ({ st with advData := { a1 with rssi := toInt8 rb } }, none, env)
                | none => .panicked
              else .ok ({ st with advData := a1 }, none, env)
            else
              -- eirLength >= 64: neither switch case applies; the report stays
              -- in the slot with the old eirData
              .ok ({ st with advData := a0 }, none, env)
          | _, _, _, _ => .panicked
        else if sub = 0x05 ∨ sub = 0x06 ∨ sub = 0x08 ∨ sub = 0x09 then
          -- LTK request / conn param request / P256 / DH key: no-ops
          .ok (st, none, env)
        else
          -- unknown metaevent: clear advertising state and continue
          .ok ({ st with advData := clearedAdv }, none, env)
    else if evt = 0x10 then
      -- EVT_UNKNOWN
      .ok (st, some .unknownEvent, env)
    else
      .ok (st, none, env)
  | _, _ => .panicked

/-- The ACL full-length expression of src/unnamed/part_000 `poll`:
`HCIACLHeaderLen + (h.buf[3] | (h.buf[4] << 8))`, all at width 8
(`h.buf[3]`, `h.buf[4]` and the sum are `byte` values in Go). -/
def aclFullLen000 (b3 b4 : Nat) : Nat :=
  (5 + Nat.lor b3 ((b4 <<< 8) % 256)) % 256

/-- The ACL full-length expression of src/unnamed/part_001 `poll`:
`HCIACLHeaderLen + (h.buf[3] + (h.buf[4] << 8))`, all at width 8. -/
def aclFullLen001 (b3 b4 : Nat) : Nat :=
  (5 + (b3 + (b4 <<< 8) % 256) % 256) % 256

/-- The event full-length expression of both `poll` variants:
`HCIEvtHeaderLen + h.buf[2]` at width 8. -/
def evtFullLen (b2 : Nat) : Nat := (3 + b2) % 256

/-- Output of one `poll` call: the driver result, the transport bytes left
unconsumed, and — when the byte count reached a frame boundary — the count
at that moment, whether it was an event frame (`true`) or an ACL frame, and
the slice `h.buf[1:i]` handed to the packet handler. -/
structure PollOut where
  res : HRes
  remaining : List Nat
  emitted : Option (Nat × Bool × List Nat)
deriving DecidableEq, Repr

/-- The byte-drain loop of `poll` in src/unnamed/part_000 (lines 152-191).
`i` is the running byte count (a Go `byte`, hence the `% 256` on the
increment), `hbuf` the 256-byte receive buffer, and the final argument the
bytes the transport currently has buffered.  An unrecognized leading byte
resets the count and continues (the `return ErrHCIUnknown` is commented out
in this variant). -/
def pollAux (hed : Env → HciState → List Nat → HRes)
    (env : Env) (st : HciState) (i : Nat) (hbuf : List Nat) :
    List Nat → PollOut
  | [] => ⟨.ok (st, none, env), [], none⟩
  | b :: bs =>
    let hb := hbuf.set i (b % 256)
    let j := (i + 1) % 256
    if hb.getD 0 0 = 0x02 then
      -- HCI_ACLDATA_PKT
      if j > 5 then
        if j ≥ aclFullLen000 (hb.getD 3 0) (hb.getD 4 0) then
          -- handleACLData(h.buf[1:i]) is a no-op returning nil
          ⟨.ok (st, none, env), bs, some (j, false, (hb.drop 1).take (j - 1))⟩
        else pollAux hed env st j hb bs
      else pollAux hed env st j hb bs
    else if hb.getD 0 0 = 0x04 then
      -- HCI_EVENT_PKT
      if j > 3 then
        if j ≥ evtFullLen (hb.getD 2 0) then
          let sl := (hb.drop 1).take (j - 1)
          ⟨hed env st sl, bs, some (j, true, sl)⟩
        else pollAux hed env st j hb bs
      else pollAux hed env st j hb bs
    else
      -- unknown packet: reset the running count and keep consuming
      pollAux hed env st 0 hb bs

/-- `poll` of src/unnamed/part_000: drain the bytes the transport currently
has buffered through `pollAux`, starting from a zero count. -/
def poll (hed : Env → HciState → List Nat → HRes) (env : Env) (st : HciState) :
    PollOut :=
  let (chunk, env') := env.popChunk
  pollAux hed env' st 0 (List.replicate 256 0) chunk

/-- The send-and-wait loop of `sendCommandWithParams` (src/unnamed/part_000
lines 306-315): poll until `cmdCompleteOpcode` equals the opcode just sent,
returning `ErrHCITimeout` once an elapsed-seconds reading exceeds 3.  The
`iters` bound is modelling fuel for the unbounded Go loop; an empty clock
queue reads 4 seconds, so a run with a finite environment always returns
before exhausting `iters` when `iters` is large enough. -/
def sendLoop (hed : Env → HciState → List Nat → HRes) (opcode : Nat) :
    Nat → Env → HciState → HRes
  | 0, _, _ => .fuelOut
  | iters + 1, env, st =>
    if st.cmdCompleteOpcode = opcode then .ok (st, none, env)
    else
      match poll hed env st with
      | ⟨.ok (st', some e, env'), _, _⟩ => .ok (st', some e, env')
      | ⟨.ok (st', none, env'), _, _⟩ =>
        let (elapsed, env'') := env'.popClock
        if elapsed > 3 then .ok (st', some .timeout, env'')
        else sendLoop hed opcode iters env'' st'
      | ⟨.panicked, _, _⟩ => .panicked
      | ⟨.fuelOut, _, _⟩ => .fuelOut

/-- `sendCommandWithParams` of src/unnamed/part_000 (lines 288-318): panics
when the transmit slice `h.buf[:4+len(params)]` exceeds the 256-byte
capacity; otherwise serializes `[0x01, opcode_lo, opcode_hi, len] ++ params`,
writes it (a failed write aborts with the write error), resets the
completion state to the sentinels `0xffff`/`0xff`, and enters the wait
loop. -/
def sendCommandWithParams (hed : Env → HciState → List Nat → HRes)
    (env : Env) (st : HciState) (opcode : Nat) (params : List Nat) : HRes :=
  if 4 + params.length > 256 then .panicked
  else
    let (wok, env') := env.popWrite
    if wok then
      let st' := { st with cmdCompleteOpcode := 0xffff, cmdCompleteStatus := 0xff }
      sendLoop hed opcode (env'.clocks.length + 1) env' st'
    else .ok (st, some .io, env')

/-- `leSetAdvertiseEnable` of src/unnamed/part_000 (lines 242-249). -/
def leSetAdvertiseEnable (hed : Env → HciState → List Nat → HRes)
    (env : Env) (st : HciState) (enabled : Bool) : HRes :=
  sendCommandWithParams hed env st (Nat.lor (0x08 <<< 10) 0x000a)
    [if enabled then 1 else 0]

/-- `leSetScanEnable` of src/unnamed/part_000 (lines 215-227): assigns
`h.scanning = enabled` first, then issues the scan-enable command. -/
def leSetScanEnable (hed : Env → HciState → List Nat → HRes)
    (env : Env) (st : HciState) (enabled duplicates : Bool) : HRes :=
  let st' := { st with scanning := enabled }
  sendCommandWithParams hed env st' (Nat.lor (0x08 <<< 10) 0x000c)
    [if enabled then 1 else 0, if duplicates then 1 else 0]

/-- The fueled knot closing the recursion
`handleEventData -> leSetAdvertiseEnable -> sendCommandWithParams -> poll ->
handleEventData`; each unfolding spends one unit of fuel. -/
def handleEventDataF : Nat → Env → HciState → List Nat → HRes
  | 0, _, _, _ => .fuelOut
  | fuel + 1, env, st, buf =>
    handleEventData (fun e s => leSetAdvertiseEnable (handleEventDataF fuel) e s true)
      env st buf

/-- The `hci` struct of src/unnamed/part_001: the advertising slot is a raw
byte slice instead of a decoded record. -/
structure HciState1 where
  address : List Nat
  cmdCompleteOpcode : Nat
  cmdCompleteStatus : Nat
  cmdResponse : List Nat
  scanning : Bool
  advData : List Nat
deriving DecidableEq, Repr

/-- Result type for the part_001 variant. -/
abbrev HRes1 := Res (HciState1 × Option HciErr × Env)

/-- `handleEventData` of src/unnamed/part_001 (lines 251-316).  As in the
part_000 variant, `advEnable` abstracts the recursive
`h.leSetAdvertiseEnable(true)` call.  Note `uint16(buf[5]<<8)` in the
`EVT_CMD_STATUS` case: the shift happens at width 8, so the high byte is
lost there. -/
def handleEventData1 (advEnable : Env → HciState1 → HRes1)
    (env : Env) (st : HciState1) (buf : List Nat) : HRes1 :=
  match buf.get? 0, buf.get? 1 with
  | some evt, some plen =>
    if evt = 0x05 then advEnable env st
    else if evt = 0x08 then .ok (st, none, env)
    else if evt = 0x0e then
      match buf.get? 3, buf.get? 4, buf.get? 5 with
      | some b3, some b4, some b5 =>
        if plen > 0 then
          let hi := (plen + 2) % 256
          if hi < 1 then .panicked
          else
            .ok ({ st with cmdCompleteOpcode := Nat.lor b3 (b4 <<< 8),
                           cmdCompleteStatus := b5,
                           cmdResponse := (buf.drop 1).take (hi - 1) }, none, env)
        else
          .ok ({ st with cmdCompleteOpcode := Nat.lor b3 (b4 <<< 8),
                         cmdCompleteStatus := b5,
                         cmdResponse := [] }, none, env)
      | _, _, _ => .panicked
    else if evt = 0x0f then
      match buf.get? 2, buf.get? 4, buf.get? 5 with
      | some b2, some b4, some b5 =>
        .ok ({ st with cmdCompleteOpcode := Nat.lor b4 ((b5 <<< 8) % 256),
                       cmdCompleteStatus := b2,
                       cmdResponse := [] }, none, env)
      | _, _, _ => .panicked
    else if evt = 0x13 then .ok (st, none, env)
    else if evt = 0x3e then
      match buf.get? 2 with
      | none => .panicked
      | some sub =>
        if sub = 0x0a ∨ sub = 0x01 then .ok (st, none, env)
        else if sub = 0x02 then
          -- h.advData = append(buf[:0:0], buf[3:plen+3]...), plen+3 at width 8
          let hi := (plen + 3) % 256
          if hi < 3 then .panicked
          else .ok ({ st with advData := (buf.drop 3).take (hi - 3) }, none, env)
        else if sub = 0x05 ∨ sub = 0x06 ∨ sub = 0x08 ∨ sub = 0x09 then
          .ok (st, none, env)
        else .ok (st, none, env)
    else if evt = 0x10 then .ok (st, some .unknownEvent, env)
    else .ok (st, none, env)
  | _, _ => .panicked

/-- Output of one part_001 `poll` call. -/
structure PollOut1 where
  res : HRes1
  remaining : List Nat
  emitted : Option (Nat × Bool × List Nat)
deriving DecidableEq, Repr

/-- The byte-drain loop of `poll` in src/unnamed/part_001 (lines 121-155).
Unlike part_000, only a leading `0xff` byte is discarded with a count
reset; any other unrecognized leading byte makes `poll` return
`ErrHCIUnknown`. -/
def pollAux1 (hed : Env → HciState1 → List Nat → HRes1)
    (env : Env) (st : HciState1) (i : Nat) (hbuf : List Nat) :
    List Nat → PollOut1
  | [] => ⟨.ok (st, none, env), [], none⟩
  | b :: bs =>
    let hb := hbuf.set i (b % 256)
    let j := (i + 1) % 256
    if hb.getD 0 0 = 0x02 then
      if j > 5 ∧ j ≥ aclFullLen001 (hb.getD 3 0) (hb.getD 4 0) then
        ⟨.ok (st, none, env), bs, some (j, false, (hb.drop 1).take (j - 1))⟩
      else pollAux1 hed env st j hb bs
    else if hb.getD 0 0 = 0x04 then
      if j > 3 then
        if j ≥ evtFullLen (hb.getD 2 0) then
          let sl := (hb.drop 1).take (j - 1)
          ⟨hed env st sl, bs, some (j, true, sl)⟩
        else pollAux1 hed env st j hb bs
      else pollAux1 hed env st j hb bs
    else if hb.getD 0 0 = 0xff then
      -- leftovers in buffer, clear it
      pollAux1 hed env st 0 hb bs
    else
      -- default: return ErrHCIUnknown
      ⟨.ok (st, some .unknown, env), bs, none⟩

/-- `makeAddress` of src/adapter_nina.go: the identity on a 6-byte MAC. -/
def makeAddress (mac : List Nat) : List Nat :=
  [mac.getD 0 0, mac.getD 1 0, mac.getD 2 0, mac.getD 3 0, mac.getD 4 0, mac.getD 5 0]

/-- The EIR tag-length-value loop of `Scan` in src/gap_nina.go (lines
56-78), accumulating the advertised local name.  At cursor `i` it reads
`l = eirData[i]` and `t = eirData[i+1]` (both plain indexing into the
64-byte array, so reading past index 63 panics), stops if `l < 1`, extracts
`eirData[i+2 : i+2+l]` as the local name for tags 0x08/0x09 (array slicing,
panics if `i+2+l > 64`), and advances by `l+1`.  The `fuel` argument only
makes the recursion structural: the cursor advances by at least 2 per
iteration, so `parseEIR` below always supplies enough fuel
(`parseEIRloop_no_fuelOut`). -/
def parseEIRloop (eir : List Nat) (eirLength : Nat) :
    Nat → Nat → List Nat → Res (List Nat)
  | fuel, i, name =>
    if i < eirLength then
      match fuel with
      | 0 => .fuelOut
      | fuel + 1 =>
        match eir.get? i, eir.get? (i + 1) with
        | some l, some t =>
          if l < 1 then .ok name
          else if t = 0x08 ∨ t = 0x09 then
            if i + 2 + l ≤ 64 then
              parseEIRloop eir eirLength fuel (i + l + 1) ((eir.drop (i + 2)).take l)
            else .panicked
          else
            parseEIRloop eir eirLength fuel (i + l + 1) name
        | _, _ => .panicked
    else .ok name

/-- The EIR loop run from cursor 0 with an empty local name and enough
fuel. -/
def parseEIR (eir : List Nat) (eirLength : Nat) : Res (List Nat) :=
  parseEIRloop eir eirLength (eirLength + 1) 0 []

/-- The fuel of `parseEIRloop` is an artifact: whenever
`eirLength - i ≤ 2 * fuel` the loop never runs out. -/
theorem parseEIRloop_no_fuelOut (eir : List Nat) (eirLength : Nat) :
    ∀ (fuel i : Nat) (name : List Nat), eirLength - i ≤ 2 * fuel →
      parseEIRloop eir eirLength fuel i name ≠ .fuelOut := by
  intro fuel
  induction fuel with
  | zero =>
    intro i name h
    unfold parseEIRloop
    have : ¬ i < eirLength := by omega
    simp [this]
  | succ f ih =>
    intro i name h
    unfold parseEIRloop
    by_cases hlt : i < eirLength
    · simp only [hlt, if_true]
      match hgi : eir.get? i, hgt : eir.get? (i + 1) with
      | some l, some t =>
        by_cases hl : l < 1
        · simp [hl]
        · by_cases ht : t = 0x08 ∨ t = 0x09
          · by_cases hb : i + 2 + l ≤ 64
            · simp only [hl, ht, hb, if_true, if_false]
              exact ih (i + l + 1) _ (by omega)
            · simp [hl, ht, hb]
          · simp only [hl, ht, if_false]
            exact ih (i + l + 1) _ (by omega)
      | some l, none => simp
      | none, some t => simp
      | none, none => simp
    · simp [hlt]

/-- `parseEIR` never reports fuel exhaustion. -/
theorem parseEIR_no_fuelOut (eir : List Nat) (eirLength : Nat) :
    parseEIR eir eirLength ≠ .fuelOut :=
  parseEIRloop_no_fuelOut eir eirLength (eirLength + 1) 0 [] (by omega)

/-- The data handed to the scan callback in src/gap_nina.go (lines 80-87):
address bytes and type, RSSI, and the parsed local name. -/
structure ScanResult where
  addr : List Nat
  addrType : Nat
  rssi : Int
  localName : List Nat
deriving DecidableEq, Repr

/-- What one iteration of the `Scan` loop does after `poll` returns. -/
inductive ScanAction where
  | callbackInvoked (r : ScanResult)
  | droppedNonScanResponse
  | droppedEirTooLong
  | idle (returned : Bool)
deriving DecidableEq, Repr

/-- One iteration of the `Scan` loop body of src/gap_nina.go (lines 39-97),
after `poll` has returned without error: if the advertising slot is
populated, a report whose `typ` differs from 0x04 is cleared without
invoking the callback; otherwise a report with `eirLength > 64` is cleared
without invoking the callback; otherwise the EIR payload is parsed and the
callback is invoked, after which the slot is cleared.  With no report, the
loop returns when `a.scanning` has been cleared and sleeps otherwise. -/
def scanStep (st : HciState) (adapterScanning : Bool) :
    Res (ScanAction × HciState) :=
  if st.advData.reported then
    if st.advData.typ ≠ 0x04 then .ok (.droppedNonScanResponse, clearAdvData st)
    else if st.advData.eirLength > 64 then .ok (.droppedEirTooLong, clearAdvData st)
    else
      match parseEIR st.advData.eirData st.advData.eirLength with
      | .panicked => .panicked
      | .fuelOut => .fuelOut
      | .ok nm =>
        .ok (.callbackInvoked
              { addr := makeAddress st.advData.peerBdaddr,
                addrType := st.advData.peerBdaddrType,
                rssi := st.advData.rssi, localName := nm },
            clearAdvData st)
  else .ok (.idle (!adapterScanning), st)

/-- What one iteration of the `Connect` wait loop decides
(src/gap_nina.go lines 134-156). -/
inductive ConnectDecision where
  | abortErr (e : HciErr)
  | returnDevice (handle : Nat) (ptype : Nat) (peer : List Nat)
  | keepPolling
deriving DecidableEq, Repr

/-- One iteration of the `Connect` wait loop of src/gap_nina.go (lines
134-156), given the error result of the `poll` call, the hci state after
it, and the elapsed seconds: a poll error aborts; a set `connected` flag
returns the device descriptor; otherwise the loop continues — in the Go
source the `break` in `if elapsed > 5 { break }` leaves only the `switch`
statement, not the `for` loop, so the timeout branch also just continues
(skipping the sleep). -/
def connectStep (pollErr : Option HciErr) (st : HciState) (elapsed : Nat) :
    ConnectDecision :=
  match pollErr with
  | some e => .abortErr e
  | none =>
    if st.connectData.connected then
      .returnDevice st.connectData.handle st.connectData.peerBdaddrType
        (makeAddress st.connectData.peerBdaddr)
    else if elapsed > 5 then
      .keepPolling
    else
      .keepPolling

/-- Outcome of running the `Connect` wait loop for a bounded number of
iterations. -/
inductive ConnectOutcome where
  | failed (e : HciErr)
  | connectedDevice (handle : Nat) (ptype : Nat) (peer : List Nat)
  | stillPolling
deriving DecidableEq, Repr

/-- Run the `Connect` wait loop: at iteration `n` the oracle `trace` gives
the hci state and poll error produced by that iteration's `poll` call and
`elapsed` gives the wall-clock seconds since the create-connection
command.  `fuel` bounds the number of iterations examined; the Go loop
itself has no exit besides the two returns inside `connectStep`. -/
def connectRun (trace : Nat → HciState × Option HciErr) (elapsed : Nat → Nat) :
    Nat → Nat → ConnectOutcome
  | _, 0 => .stillPolling
  | n, fuel + 1 =>
    match connectStep (trace n).2 (trace n).1 (elapsed n) with
    | .abortErr e => .failed e
    | .returnDevice h t p => .connectedDevice h t p
    | .keepPolling => connectRun trace elapsed (n + 1) fuel

/-! ### Shared concrete values -/

/-- Environment with every queue empty (defaults apply). -/
def env0 : Env := ⟨[], [], []⟩

/-- A fresh 256-byte receive buffer, as allocated by `newHCI`. -/
def hbuf0 : List Nat := List.replicate 256 0

/-- Trivial advertise-enable semantics, for running the decoder on branches
that never reach `EVT_DISCONN_COMPLETE`. -/
def advEnableTriv : Env → HciState → HRes := fun e s => .ok (s, none, e)

/-- Trivial advertise-enable semantics for the part_001 decoder. -/
def advEnableTriv1 : Env → HciState1 → HRes1 := fun e s => .ok (s, none, e)

/-- Fresh part_001 hci state (Go zero values). -/
def initHci1 : HciState1 :=
  { address := List.replicate 6 0, cmdCompleteOpcode := 0, cmdCompleteStatus := 0,
    cmdResponse := [], scanning := false, advData := [] }

/-! ### List helper lemmas -/

theorem getD_of_take {α : Type} {l : List α} {n k : Nat} (d : α) (h : n < k) :
    (l.take k).getD n d = l.getD n d := by
  simp [List.getD_eq_getElem?_getD, List.getElem?_take_of_lt h]

theorem getD_set_self {α : Type} {l : List α} {i : Nat} {b : α} (d : α)
    (h : i < l.length) : (l.set i b).getD i d = b := by
  simp [List.getD_eq_getElem?_getD, List.getElem?_set_eq_of_lt _ h]

theorem getD_set_ne {α : Type} {l : List α} {i j : Nat} {b : α} (d : α)
    (h : i ≠ j) : (l.set i b).getD j d = l.getD j d := by
  simp [List.getD_eq_getElem?_getD, List.getElem?_set_ne h]

theorem getD_append_left {α : Type} {l₁ l₂ : List α} {n : Nat} (d : α)
    (h : n < l₁.length) : (l₁ ++ l₂).getD n d = l₁.getD n d := by
  simp [List.getD_eq_getElem?_getD, List.getElem?_append, h]

theorem take_of_set {α : Type} {l : List α} {i k : Nat} {b : α} (h : k ≤ i) :
    (l.set i b).take k = l.take k := by
  apply List.ext_getElem?
  intro n
  by_cases hn : n < k
  · rw [List.getElem?_take_of_lt hn, List.getElem?_take_of_lt hn,
      List.getElem?_set_ne (by omega)]
  · rw [List.getElem?_eq_none, List.getElem?_eq_none]
    · simp [List.length_take]; omega
    · simp [List.length_take]; omega

theorem take_set_succ {α : Type} {l : List α} {i : Nat} {b : α}
    (h : i < l.length) : (l.set i b).take (i + 1) = l.take i ++ [b] := by
  rw [List.take_succ, take_of_set (le_refl i), List.getElem?_set_eq_of_lt _ h]
  rfl

theorem drop_one_take {α : Type} {l : List α} {n : Nat} :
    (l.take (n + 1)).drop 1 = (l.drop 1).take n := by
  cases l <;> simp

/-! ### Theorems for the claims -/

/-- C1: the `Connect` wait loop of src/gap_nina.go never stops polling, no
matter how much wall-clock time elapses: in the Go source the `break` in
the timeout check exits only the enclosing `switch`, not the `for` loop, so
whenever `poll` keeps succeeding and the connection slot never reports
`connected`, every iteration decides `keepPolling` and the
cancel-connection + `ErrConnect` epilogue after the loop is unreachable.
This contradicts the claim that `Connect` stops after more than 5 seconds
and returns the connect-failed error. -/
theorem connect_wait_loop_never_exits
    (trace : Nat → HciState × Option HciErr) (elapsed : Nat → Nat)
    (hok : ∀ n, (trace n).2 = none)
    (hnc : ∀ n, ((trace n).1).connectData.connected = false) :
    ∀ n fuel, connectRun trace elapsed n fuel = .stillPolling := by
  intro n fuel
  induction fuel generalizing n with
  | zero => rfl
  | succ k ih =>
    unfold connectRun connectStep
    rw [hok n]
    simp only [hnc n, Bool.false_eq_true, if_false, ite_self]
    exact ih (n + 1)

/-- Witness for C1: a concrete execution in which `poll` always succeeds,
the slot never reports connected, and the elapsed clock reads `n` seconds
at iteration `n` (so it passes 5 seconds from iteration 6 on); after 50
iterations `Connect` is still polling. -/
theorem connect_wait_loop_never_exits_witness :
    connectRun (fun _ => (initHci, none)) (fun n => n) 0 50 =
      ConnectOutcome.stillPolling :=
  connect_wait_loop_never_exits (fun _ => (initHci, none)) (fun n => n)
    (fun _ => rfl) (fun _ => rfl) 0 50

set_option maxRecDepth 10000 in
/-- C2: the engine does panic on inputs the claim quantifies over.  (a) A
command-complete event frame `[0x04, 0x0e, 0x01, 0x00]` (declared parameter
length 1 < 4) completes at byte count 4, and `handleEventData` then indexes
`buf[3]` into the 3-byte slice `h.buf[1:4]` — index out of range.  (b) The
same out-of-range read, exercised on the decoder directly.  (c) With 255
parameter bytes, `sendCommandWithParams` slices `h.buf[:259]` past the
256-byte capacity — slice bounds out of range.  Failures are Go runtime
panics, not returned error values. -/
theorem hci_core_panics :
    (pollAux (handleEventDataF 3) env0 initHci 0 hbuf0 [4, 0x0e, 1, 0]).res =
        Res.panicked
    ∧ handleEventData advEnableTriv env0 initHci [0x0e, 1, 0] = Res.panicked
    ∧ sendCommandWithParams (handleEventDataF 3) env0 initHci 0x0c03
        (List.replicate 255 0) = Res.panicked := by
  refine ⟨by decide, by decide, by decide⟩

/-- C4: the local-name extraction of the EIR loop in src/gap_nina.go takes
`len` bytes starting at `cursor+2`, not `len-1`: on the crafted payload
`len=5, tag=0x09, "Test"` the decoded local name is the 5-byte string
"Test\x00" (the spec's expected result is the 4-byte "Test"). -/
theorem local_name_takes_len_bytes :
    parseEIR ([5, 9, 84, 101, 115, 116] ++ List.replicate 58 0) 6 =
        Res.ok [84, 101, 115, 116, 0]
    ∧ Res.ok [84, 101, 115, 116, 0] ≠
        (Res.ok [84, 101, 115, 116] : Res (List Nat)) := by
  refine ⟨by decide, by decide⟩

/-- C5: the ACL full-length computation of both `poll` variants loses the
high length byte: `h.buf[4] << 8` is a shift of a Go `byte`, so it is 0,
and the whole sum is reduced at width 8.  In particular for
`len_lo = 1, len_hi = 1` (payload 257) the computed full length is 6, not
the 16-bit value 5 + 257 = 262 the claim states. -/
theorem acl_full_length_drops_high_byte :
    (∀ b3 b4 : Nat, aclFullLen000 b3 b4 = (5 + b3) % 256)
    ∧ (∀ b3 b4 : Nat, aclFullLen001 b3 b4 = (5 + b3 % 256) % 256)
    ∧ aclFullLen000 1 1 = 6 ∧ 5 + Nat.lor 1 (1 <<< 8) = 262
    ∧ (6 : Nat) ≠ 262 := by
  refine ⟨?_, ?_, by decide, by decide, by decide⟩
  · intro b3 b4
    unfold aclFullLen000
    rw [Nat.shiftLeft_eq, Nat.mul_mod_left]
    have h : Nat.lor b3 0 = b3 := Nat.or_zero b3
    rw [h]
  · intro b3 b4
    unfold aclFullLen001
    rw [Nat.shiftLeft_eq, Nat.mul_mod_left, Nat.add_zero]

/-- A populated advertising slot whose `typ` is 0x00 (a connectable
undirected advertisement, not a scan response). -/
def stTyp0 : HciState :=
  { initHci with advData := { clearedAdv with reported := true, typ := 0 } }

/-- A populated advertising slot whose `typ` is 0x04 (scan response). -/
def stTyp4 : HciState :=
  { initHci with advData := { clearedAdv with reported := true, typ := 4 } }

/-- Counterexample for C3: the `Scan` loop of src/gap_nina.go filters the
opposite way from the claim.  A populated report with `typ = 0x00 ≠ 0x04`
is cleared without invoking the callback, and a report with `typ = 0x04`
is the one surfaced to the callback. -/
theorem scan_type_filter_counterexample :
    scanStep stTyp0 true =
        Res.ok (ScanAction.droppedNonScanResponse, clearAdvData stTyp0)
    ∧ scanStep stTyp4 true =
        Res.ok (ScanAction.callbackInvoked
          { addr := [0, 0, 0, 0, 0, 0], addrType := 0, rssi := 0, localName := [] },
          clearAdvData stTyp4) := by
  refine ⟨by decide, by decide⟩

set_option maxRecDepth 10000 in
/-- Counterexample for C6: an event frame with declared payload length 0
(`[0x04, 0x13, 0x00]`) is complete when the count reaches 3, but the
assembler's `i > HCIEvtHeaderLen` guard keeps it from being emitted then;
it is only emitted after a fourth byte — belonging to the next frame —
arrives, at count 4 ≠ 3, with that foreign byte included in the slice. -/
theorem event_len0_frame_not_emitted :
    pollAux (handleEventDataF 3) env0 initHci 0 hbuf0 [4, 0x13, 0] =
      ⟨Res.ok (initHci, none, env0), [], none⟩
    ∧ (pollAux (handleEventDataF 3) env0 initHci 0 hbuf0 [4, 0x13, 0, 9]).emitted =
        some (4, true, [0x13, 0, 9])
    ∧ (4 : Nat) ≠ 3 + 0 := by
  refine ⟨by decide, by decide, by decide⟩

/-- One-step unfolding of `pollAux` on a cons cell (packaged so rewriting
consumes exactly one byte at a time). -/
theorem pollAux_cons (hed : Env → HciState → List Nat → HRes) (env : Env)
    (st : HciState) (i : Nat) (hbuf : List Nat) (b : Nat) (bs : List Nat) :
    pollAux hed env st i hbuf (b :: bs) =
      (if (hbuf.set i (b % 256)).getD 0 0 = 2 then
        if (i + 1) % 256 > 5 then
          if (i + 1) % 256 ≥ aclFullLen000 ((hbuf.set i (b % 256)).getD 3 0)
              ((hbuf.set i (b % 256)).getD 4 0) then
            ⟨.ok (st, none, env), bs,
              some ((i + 1) % 256, false,
                ((hbuf.set i (b % 256)).drop 1).take ((i + 1) % 256 - 1))⟩
          else pollAux hed env st ((i + 1) % 256) (hbuf.set i (b % 256)) bs
        else pollAux hed env st ((i + 1) % 256) (hbuf.set i (b % 256)) bs
      else if (hbuf.set i (b % 256)).getD 0 0 = 4 then
        if (i + 1) % 256 > 3 then
          if (i + 1) % 256 ≥ evtFullLen ((hbuf.set i (b % 256)).getD 2 0) then
            ⟨hed env st (((hbuf.set i (b % 256)).drop 1).take ((i + 1) % 256 - 1)), bs,
              some ((i + 1) % 256, true,
                ((hbuf.set i (b % 256)).drop 1).take ((i + 1) % 256 - 1))⟩
          else pollAux hed env st ((i + 1) % 256) (hbuf.set i (b % 256)) bs
        else pollAux hed env st ((i + 1) % 256) (hbuf.set i (b % 256)) bs
      else pollAux hed env st 0 (hbuf.set i (b % 256)) bs) := rfl

/-- Reading below a prefix known through `List.take` gives the prefix's
entry. -/
theorem getD_eq_of_take_eq {α : Type} {l pre : List α} {n k : Nat} (d : α)
    (h : l.take n = pre) (hk : k < n) : l.getD k d = pre.getD k d := by
  rw [← h, getD_of_take d hk]

/-- Auxiliary induction for C6: once the three header bytes
`[4, e, p]` of an event frame are in the buffer, feeding the remaining
`body` bytes emits the frame exactly when the count reaches `3 + p`. -/
theorem pollAux_evt_consume (hed : Env → HciState → List Nat → HRes)
    (env : Env) (st : HciState) (p : Nat) (hp1 : 1 ≤ p) (hp2 : p ≤ 252) :
    ∀ (body pre hbuf rest : List Nat),
      hbuf.length = 256 →
      hbuf.take pre.length = pre →
      3 ≤ pre.length → pre.length + body.length = 3 + p →
      pre.getD 0 0 = 4 → pre.getD 2 0 = p →
      (∀ b ∈ body, b < 256) → body ≠ [] →
      pollAux hed env st pre.length hbuf (body ++ rest) =
        ⟨hed env st ((pre ++ body).drop 1), rest,
          some (3 + p, true, (pre ++ body).drop 1)⟩ := by
  intro body
  induction body with
  | nil => intro pre hbuf rest _ _ _ _ _ _ _ hne; exact absurd rfl hne
  | cons b body ih =>
    intro pre hbuf rest hlen htake hpre3 hsum h0 h2 hmem _
    have hblt : b < 256 := hmem b (List.mem_cons_self b body)
    have hbmod : b % 256 = b := Nat.mod_eq_of_lt hblt
    have hplen : pre.length + body.length + 1 = 3 + p := by
      simp only [List.length_cons] at hsum
      omega
    have hprelt' : pre.length < hbuf.length := by omega
    have hj : (pre.length + 1) % 256 = pre.length + 1 := Nat.mod_eq_of_lt (by omega)
    have hg0 : (hbuf.set pre.length (b % 256)).getD 0 0 = 4 := by
      rw [getD_set_ne 0 (by omega)]
      exact (getD_eq_of_take_eq 0 htake (by omega)).trans h0
    have hg2 : (hbuf.set pre.length (b % 256)).getD 2 0 = p := by
      rw [getD_set_ne 0 (by omega)]
      exact (getD_eq_of_take_eq 0 htake (by omega)).trans h2
    have htke : (hbuf.set pre.length (b % 256)).take (pre.length + 1) = pre ++ [b] := by
      rw [take_set_succ hprelt', htake, hbmod]
    have hev : evtFullLen ((hbuf.set pre.length (b % 256)).getD 2 0) = 3 + p := by
      rw [hg2]; unfold evtFullLen; omega
    rcases body with _ | ⟨c, body'⟩
    · -- last byte of the frame: the count reaches 3 + p, the frame is emitted
      simp only [List.length_nil] at hplen
      have hpl : pre.length = 2 + p := by omega
      show pollAux hed env st pre.length hbuf (b :: ([] ++ rest)) = _
      rw [pollAux_cons, if_neg (by omega), if_pos hg0, hj, if_pos (by omega),
        if_pos (by rw [hev]; omega)]
      have hsl : ((hbuf.set pre.length (b % 256)).drop 1).take (pre.length + 1 - 1) =
          (pre ++ [b]).drop 1 := by
        have hd := drop_one_take (l := hbuf.set pre.length (b % 256)) (n := pre.length)
        rw [htke] at hd
        simpa using hd.symm
      rw [hsl]
      have h3p : pre.length + 1 = 3 + p := by omega
      rw [h3p]
      simp
    · -- an interior byte: the threshold is not yet reached, keep consuming
      simp only [List.length_cons] at hplen
      show pollAux hed env st pre.length hbuf (b :: ((c :: body') ++ rest)) = _
      rw [pollAux_cons, if_neg (by omega), if_pos hg0, hj, if_pos (by omega),
        if_neg (by rw [hev]; omega)]
      have hih := ih (pre ++ [b]) (hbuf.set pre.length (b % 256)) rest
        (by simp [hlen]) (by simpa using htke) (by simp; omega)
        (by simp only [List.length_append, List.length_cons, List.length_singleton, List.length_nil]; omega)
        (by rw [getD_append_left 0 (by omega)]; exact h0)
        (by rw [getD_append_left 0 (by omega)]; exact h2)
        (fun x hx => hmem x (List.mem_cons_of_mem b hx)) (by simp)
      simp only [List.length_append, List.length_singleton] at hih
      rw [hih]
      simp [List.append_assoc]

/-- C6 (amended): within a single `poll` call of src/unnamed/part_000, an
event frame `[0x04, e, p] ++ body` with declared payload length
`1 ≤ p ≤ 252` is emitted exactly once — `poll` returns at the emission —
and exactly when the running byte count first reaches `3 + p`, consuming
exactly the frame's bytes; the emitted slice is `h.buf[1:3+p] = e :: p ::
body`.  (The original claim fails for `p = 0` — see the counterexample —
for `p ≥ 253`, where the 8-bit threshold arithmetic wraps, and for frames
split across `poll` calls, since the count restarts at 0 on every call.) -/
theorem event_frame_emitted_at_threshold (hed : Env → HciState → List Nat → HRes)
    (env : Env) (st : HciState) (e p : Nat) (body rest hbuf : List Nat)
    (hlen : hbuf.length = 256) (hp1 : 1 ≤ p) (hp2 : p ≤ 252) (he : e < 256)
    (hb : ∀ x ∈ body, x < 256) (hbl : body.length = p) :
    pollAux hed env st 0 hbuf (4 :: e :: p :: (body ++ rest)) =
      ⟨hed env st (e :: p :: body), rest, some (3 + p, true, e :: p :: body)⟩ := by
  have hpe : p % 256 = p := Nat.mod_eq_of_lt (by omega)
  have hee : e % 256 = e := Nat.mod_eq_of_lt he
  have hs0 : (hbuf.set 0 (4 % 256)).getD 0 0 = 4 := by
    rw [getD_set_self 0 (by omega)]
  have hs1 : ((hbuf.set 0 (4 % 256)).set 1 (e % 256)).getD 0 0 = 4 := by
    rw [getD_set_ne 0 (by omega)]; exact hs0
  have hs2 : (((hbuf.set 0 (4 % 256)).set 1 (e % 256)).set 2 (p % 256)).getD 0 0 = 4 := by
    rw [getD_set_ne 0 (by omega)]; exact hs1
  rw [pollAux_cons, if_neg (by rw [hs0]; decide), if_pos hs0, if_neg (by decide)]
  norm_num
  rw [pollAux_cons, if_neg (by rw [hs1]; decide), if_pos hs1, if_neg (by decide)]
  norm_num
  rw [pollAux_cons, if_neg (by rw [hs2]; decide), if_pos hs2, if_neg (by decide)]
  norm_num
  have chainlen : (((hbuf.set 0 (4 % 256)).set 1 (e % 256)).set 2 (p % 256)).length = 256 := by
    simp [hlen]
  have e1 := take_set_succ (l := (hbuf.set 0 (4 % 256)).set 1 (e % 256))
    (i := 2) (b := p % 256) (by simp [hlen])
  have e2 := take_set_succ (l := hbuf.set 0 (4 % 256)) (i := 1) (b := e % 256)
    (by simp [hlen])
  have e3 := take_set_succ (l := hbuf) (i := 0) (b := 4 % 256) (by omega)
  have htk : (((hbuf.set 0 (4 % 256)).set 1 (e % 256)).set 2 (p % 256)).take 3 =
      [4, e, p] := by
    norm_num at e1 e2 e3
    rw [e1, e2, e3, hee, hpe]
    simp
  have hmain := pollAux_evt_consume hed env st p hp1 hp2 body [4, e, p]
    (((hbuf.set 0 (4 % 256)).set 1 (e % 256)).set 2 (p % 256)) rest
    chainlen (by simpa using htk) (by simp) (by simp; omega)
    rfl rfl hb (by intro hcon; rw [hcon] at hbl; simp at hbl; omega)
  simp only [List.length_cons, List.length_nil] at hmain
  norm_num at hmain
  rw [hmain]

/-- Witness for C6: a concrete event frame `[0x04, 0x13, 0x02, 0x07, 0x08]`
is emitted at count 5 = 3 + 2 with slice `[0x13, 0x02, 0x07, 0x08]`. -/
theorem event_frame_emitted_at_threshold_witness :
    pollAux (handleEventDataF 3) env0 initHci 0 hbuf0 (4 :: 0x13 :: 2 :: ([7, 8] ++ [])) =
      ⟨handleEventDataF 3 env0 initHci (0x13 :: 2 :: [7, 8]), [],
        some (3 + 2, true, 0x13 :: 2 :: [7, 8])⟩ :=
  event_frame_emitted_at_threshold (handleEventDataF 3) env0 initHci 0x13 2 [7, 8] [] hbuf0
    (List.length_replicate 256 0) (by decide) (by decide) (by decide) (by decide) (by decide)

/-- An advertising-report meta-event frame (as handed to the decoder, type
tag stripped) whose declared EIR length is exactly 64, advertising type
0x04, status 0x01, and total slice length 78 = 13 + 64 + 1. -/
def advBuf64 : List Nat :=
  [0x3e, 76, 2, 1, 4, 0] ++ [10, 11, 12, 13, 14, 15] ++ [64] ++ List.replicate 65 7

/-- The hci state the part_000 decoder produces from `advBuf64`: the slot
stays populated (`reported = true`) with `eirLength = 64`, but the EIR
payload is not copied (the `eirLength < 64` case does not apply). -/
def st64 : HciState :=
  { initHci with advData :=
      { reported := true, status := 1, typ := 4, peerBdaddrType := 0,
        peerBdaddr := [10, 11, 12, 13, 14, 15], eirLength := 64,
        eirData := List.replicate 64 0, rssi := 0 } }

/-- Counterexample for C7: an advertising report with EIR length exactly 64
is not discarded.  The decoder leaves the slot populated (without copying
the payload), and the `Scan` loop's `eirLength > 64` guard does not catch
the boundary value, so the callback IS invoked for it (with a stale,
all-zero EIR payload). -/
theorem eir_length_64_report_surfaced :
    handleEventData advEnableTriv env0 initHci advBuf64 =
        Res.ok (st64, none, env0)
    ∧ scanStep st64 true =
        Res.ok (ScanAction.callbackInvoked
          { addr := [10, 11, 12, 13, 14, 15], addrType := 0, rssi := 0,
            localName := [] },
          clearAdvData st64) := by
  refine ⟨by decide, by decide⟩

/-- C7 (amended): an advertising report whose declared EIR length is
strictly greater than 64 is never surfaced to the scan callback: either
the packet-length guard fires and the decoder clears the slot, or the
decoder leaves the slot populated and the `Scan` loop clears it (through
the type filter or the `eirLength > 64` guard) without invoking the
callback.  At EIR length exactly 64 the report IS surfaced — see the
counterexample. -/
theorem eir_over_64_not_surfaced (advEnable : Env → HciState → HRes)
    (env : Env) (st : HciState)
    (plen s ty pt a0 a1 a2 a3 a4 a5 e : Nat) (tail : List Nat)
    (he : 64 < e) (b : Bool) :
    ∀ st' r env' act st2,
      handleEventData advEnable env st
          (0x3e :: plen :: 2 :: s :: ty :: pt ::
            a0 :: a1 :: a2 :: a3 :: a4 :: a5 :: e :: tail)
        = .ok (st', r, env') →
      scanStep st' b = .ok (act, st2) →
      ∀ res, act ≠ ScanAction.callbackInvoked res := by
  intro st' r env' act st2 h1 h2 res
  unfold handleEventData at h1
  simp only [List.get?] at h1
  norm_num at h1
  split at h1
  · -- the packet-length guard fired: the decoder cleared the slot
    simp only [Res.ok.injEq, Prod.mk.injEq] at h1
    rcases h1 with ⟨h1s, h1r, h1e⟩
    subst h1s
    unfold scanStep at h2
    simp [clearedAdv] at h2
    rcases h2 with ⟨h2a, _⟩
    subst h2a
    intro hcon
    cases hcon
  · split at h1
    · -- eirLength < 64: contradicts 64 < e
      omega
    · -- eirLength ≥ 64: slot stays populated; Scan drops it
      simp only [Res.ok.injEq, Prod.mk.injEq] at h1
      rcases h1 with ⟨h1s, h1r, h1e⟩
      subst h1s
      unfold scanStep at h2
      simp only [if_true, if_pos rfl] at h2
      by_cases hty : ty = 4
      · subst hty
        simp [he] at h2
        rcases h2 with ⟨h2a, _⟩
        subst h2a
        intro hcon
        cases hcon
      · simp [hty] at h2
        rcases h2 with ⟨h2a, _⟩
        subst h2a
        intro hcon
        cases hcon

/-- The slot state produced from an advertising report with EIR length 70
(payload not copied, slot left populated). -/
def st70 : HciState :=
  { initHci with advData :=
      { reported := true, status := 1, typ := 4, peerBdaddrType := 0,
        peerBdaddr := [10, 11, 12, 13, 14, 15], eirLength := 70,
        eirData := List.replicate 64 0, rssi := 0 } }

/-- Witness for C7: a concrete report with EIR length 70 > 64 and type 0x04
is left in the slot by the decoder and then dropped (not surfaced) by the
`Scan` loop. -/
theorem eir_over_64_not_surfaced_witness :
    ScanAction.droppedEirTooLong ≠ ScanAction.callbackInvoked
      { addr := [10, 11, 12, 13, 14, 15], addrType := 0, rssi := 0, localName := [] } :=
  eir_over_64_not_surfaced advEnableTriv env0 initHci 76 1 4 0 10 11 12 13 14 15 70
    (List.replicate 71 7) (by decide) true st70 none env0
    ScanAction.droppedEirTooLong (clearAdvData st70) (by decide) (by decide)
    { addr := [10, 11, 12, 13, 14, 15], addrType := 0, rssi := 0, localName := [] }

/-- One-step unfolding of `pollAux1` on a cons cell. -/
theorem pollAux1_cons (hed : Env → HciState1 → List Nat → HRes1) (env : Env)
    (st : HciState1) (i : Nat) (hbuf : List Nat) (b : Nat) (bs : List Nat) :
    pollAux1 hed env st i hbuf (b :: bs) =
      (if (hbuf.set i (b % 256)).getD 0 0 = 2 then
        if (i + 1) % 256 > 5 ∧ (i + 1) % 256 ≥ aclFullLen001
            ((hbuf.set i (b % 256)).getD 3 0) ((hbuf.set i (b % 256)).getD 4 0) then
          ⟨.ok (st, none, env), bs,
            some ((i + 1) % 256, false,
              ((hbuf.set i (b % 256)).drop 1).take ((i + 1) % 256 - 1))⟩
        else pollAux1 hed env st ((i + 1) % 256) (hbuf.set i (b % 256)) bs
      else if (hbuf.set i (b % 256)).getD 0 0 = 4 then
        if (i + 1) % 256 > 3 then
          if (i + 1) % 256 ≥ evtFullLen ((hbuf.set i (b % 256)).getD 2 0) then
            ⟨hed env st (((hbuf.set i (b % 256)).drop 1).take ((i + 1) % 256 - 1)), bs,
              some ((i + 1) % 256, true,
                ((hbuf.set i (b % 256)).drop 1).take ((i + 1) % 256 - 1))⟩
          else pollAux1 hed env st ((i + 1) % 256) (hbuf.set i (b % 256)) bs
        else pollAux1 hed env st ((i + 1) % 256) (hbuf.set i (b % 256)) bs
      else if (hbuf.set i (b % 256)).getD 0 0 = 0xff then
        pollAux1 hed env st 0 (hbuf.set i (b % 256)) bs
      else ⟨.ok (st, some .unknown, env), bs, none⟩) := rfl

/-- C8 (amended): in the part_000 variant, a new frame whose leading byte
is not one of the recognized inbound tags (0x02 ACL, 0x04 event) resets the
running count to zero and keeps consuming — a whole stream of such bytes is
swallowed with no error and no emission.  In the part_001 variant only the
leading byte 0xff is discarded this way; any other unrecognized leading
byte makes that variant's `poll` return `ErrHCIUnknown` — the original
claim's never-an-error statement fails there. -/
theorem unknown_packet_resync_policy :
    (∀ (hed : Env → HciState → List Nat → HRes) (env : Env) (st : HciState)
        (bs hbuf : List Nat), 0 < hbuf.length →
        (∀ b ∈ bs, b % 256 ≠ 2 ∧ b % 256 ≠ 4) →
        pollAux hed env st 0 hbuf bs = ⟨.ok (st, none, env), [], none⟩)
    ∧ (∀ (hed : Env → HciState1 → List Nat → HRes1) (env : Env) (st : HciState1)
        (bs hbuf : List Nat), 0 < hbuf.length →
        (∀ b ∈ bs, b % 256 = 0xff) →
        pollAux1 hed env st 0 hbuf bs = ⟨.ok (st, none, env), [], none⟩)
    ∧ (∀ (hed : Env → HciState1 → List Nat → HRes1) (env : Env) (st : HciState1)
        (b : Nat) (bs hbuf : List Nat), 0 < hbuf.length →
        b % 256 ≠ 2 → b % 256 ≠ 4 → b % 256 ≠ 0xff →
        pollAux1 hed env st 0 hbuf (b :: bs) =
          ⟨.ok (st, some .unknown, env), bs, none⟩) := by
  refine ⟨?_, ?_, ?_⟩
  · intro hed env st bs
    induction bs with
    | nil => intro hbuf _ _; rfl
    | cons b bs ih =>
      intro hbuf hl hmem
      have hb := hmem b (List.mem_cons_self b bs)
      have hg : (hbuf.set 0 (b % 256)).getD 0 0 = b % 256 := getD_set_self 0 hl
      rw [pollAux_cons, if_neg (by rw [hg]; exact hb.1), if_neg (by rw [hg]; exact hb.2)]
      exact ih (hbuf.set 0 (b % 256)) (by simpa using hl)
        (fun x hx => hmem x (List.mem_cons_of_mem b hx))
  · intro hed env st bs
    induction bs with
    | nil => intro hbuf _ _; rfl
    | cons b bs ih =>
      intro hbuf hl hmem
      have hb := hmem b (List.mem_cons_self b bs)
      have hg : (hbuf.set 0 (b % 256)).getD 0 0 = b % 256 := getD_set_self 0 hl
      rw [pollAux1_cons, if_neg (by rw [hg, hb]; decide),
        if_neg (by rw [hg, hb]; decide), if_pos (by rw [hg, hb])]
      exact ih (hbuf.set 0 (b % 256)) (by simpa using hl)
        (fun x hx => hmem x (List.mem_cons_of_mem b hx))
  · intro hed env st b bs hbuf hl h2 h4 hff
    have hg : (hbuf.set 0 (b % 256)).getD 0 0 = b % 256 := getD_set_self 0 hl
    rw [pollAux1_cons, if_neg (by rw [hg]; exact h2), if_neg (by rw [hg]; exact h4),
      if_neg (by rw [hg]; exact hff)]

/-- Witness for C8: part_000 swallows the unrecognized bytes
`[0x01, 0x05, 0xfe]` without error; part_001 swallows `[0xff, 0xff]` but
returns `ErrHCIUnknown` on leading byte 0x06. -/
theorem unknown_packet_resync_policy_witness :
    pollAux (handleEventDataF 3) env0 initHci 0 hbuf0 [1, 5, 0xfe] =
        ⟨.ok (initHci, none, env0), [], none⟩
    ∧ pollAux1 (handleEventData1 advEnableTriv1) env0 initHci1 0 hbuf0 [0xff, 0xff] =
        ⟨.ok (initHci1, none, env0), [], none⟩
    ∧ pollAux1 (handleEventData1 advEnableTriv1) env0 initHci1 0 hbuf0 [6, 9] =
        ⟨.ok (initHci1, some .unknown, env0), [9], none⟩ :=
  ⟨unknown_packet_resync_policy.1 (handleEventDataF 3) env0 initHci [1, 5, 0xfe] hbuf0
      (by rw [hbuf0, List.length_replicate]; omega) (by decide),
   unknown_packet_resync_policy.2.1 (handleEventData1 advEnableTriv1) env0 initHci1 [0xff, 0xff]
      hbuf0 (by rw [hbuf0, List.length_replicate]; omega) (by decide),
   unknown_packet_resync_policy.2.2 (handleEventData1 advEnableTriv1) env0 initHci1 6 [9]
      hbuf0 (by rw [hbuf0, List.length_replicate]; omega) (by decide) (by decide) (by decide)⟩

/-- Counterexample for C8: in the part_001 variant, a new frame whose
leading byte is 0x03 — none of the recognized tags — makes `poll` return
the `ErrHCIUnknown` failure instead of resynchronizing. -/
theorem poll_v1_unknown_byte_errors :
    pollAux1 (handleEventData1 advEnableTriv1) env0 initHci1 0 hbuf0 [3] =
      ⟨.ok (initHci1, some .unknown, env0), [], none⟩ := by
  decide

/-- C9: for every LE connection-complete (sub-event 0x01) or enhanced
connection-complete (0x0a) meta-event, the part_000 decoder sets the
connection slot's `connected` flag to true and merely stores the status
byte `s` — whatever its value; and since the `Connect` wait loop tests only
the `connected` flag, its next iteration returns a successful device
descriptor regardless of `s` (in particular for non-zero failure
statuses). -/
theorem conn_complete_sets_connected_regardless_of_status
    (advEnable : Env → HciState → HRes) (env : Env) (st : HciState)
    (plen sub s h4 h5 role pt a0 a1 a2 a3 a4 a5 : Nat) (tail : List Nat)
    (hsub : sub = 0x01 ∨ sub = 0x0a)
    (hdst : st.connectData.peerBdaddr.length = 6) :
    handleEventData advEnable env st
        (0x3e :: plen :: sub :: s :: h4 :: h5 :: role :: pt ::
          a0 :: a1 :: a2 :: a3 :: a4 :: a5 :: tail)
      = .ok ({ st with connectData :=
                { connected := true, status := s, handle := Nat.lor h4 (h5 <<< 8),
                  role := role, peerBdaddrType := pt,
                  peerBdaddr := [a0, a1, a2, a3, a4, a5] } }, none, env)
    ∧ ∀ elapsed, connectStep none
        ({ st with connectData :=
            { connected := true, status := s, handle := Nat.lor h4 (h5 <<< 8),
              role := role, peerBdaddrType := pt,
              peerBdaddr := [a0, a1, a2, a3, a4, a5] } }) elapsed =
        .returnDevice (Nat.lor h4 (h5 <<< 8)) pt [a0, a1, a2, a3, a4, a5] := by
  constructor
  · unfold handleEventData
    simp only [List.get?]
    norm_num
    rcases hsub with h | h <;> subst h <;> norm_num <;>
      simp [copyInto, hdst, List.take, List.drop_eq_nil_of_le (le_of_eq hdst)]
  · intro elapsed
    unfold connectStep
    simp [makeAddress]

/-- Witness for C9: a connection-complete event carrying the non-zero
(failure) status 0x3f still flips the slot to `connected` and makes the
`Connect` loop return a device descriptor, even with 100 elapsed seconds. -/
theorem conn_complete_sets_connected_regardless_of_status_witness :
    handleEventData advEnableTriv env0 initHci
        (0x3e :: 19 :: 1 :: 0x3f :: 0x40 :: 0 :: 1 :: 0 ::
          10 :: 11 :: 12 :: 13 :: 14 :: 15 :: List.replicate 6 0)
      = .ok ({ initHci with connectData :=
                { connected := true, status := 0x3f, handle := Nat.lor 0x40 (0 <<< 8),
                  role := 1, peerBdaddrType := 0,
                  peerBdaddr := [10, 11, 12, 13, 14, 15] } }, none, env0)
    ∧ ∀ elapsed, connectStep none
        ({ initHci with connectData :=
            { connected := true, status := 0x3f, handle := Nat.lor 0x40 (0 <<< 8),
              role := 1, peerBdaddrType := 0,
              peerBdaddr := [10, 11, 12, 13, 14, 15] } }) elapsed =
        .returnDevice (Nat.lor 0x40 (0 <<< 8)) 0 [10, 11, 12, 13, 14, 15] :=
  conn_complete_sets_connected_regardless_of_status advEnableTriv env0 initHci
    19 1 0x3f 0x40 0 1 0 10 11 12 13 14 15 (List.replicate 6 0)
    (Or.inl rfl) (by decide)


/-- The part_000 decoder never touches `h.scanning`, provided the
advertise-enable call it may make does not either. -/
theorem handleEventData_scanning {advEnable : Env → HciState → HRes}
    (hA : ∀ env st out, advEnable env st = .ok out → out.1.scanning = st.scanning)
    {env : Env} {st : HciState} {buf : List Nat}
    {out : HciState × Option HciErr × Env}
    (h : handleEventData advEnable env st buf = .ok out) :
    out.1.scanning = st.scanning := by
  unfold handleEventData at h
  split at h
  all_goals try exact Res.noConfusion h
  rename_i evt plen heq0 heq1
  by_cases e5 : evt = 5
  · rw [if_pos e5] at h
    exact hA _ _ _ h
  rw [if_neg e5] at h
  by_cases e8 : evt = 8
  · rw [if_pos e8] at h
    simp only [Res.ok.injEq] at h
    subst h
    rfl
  rw [if_neg e8] at h
  by_cases e14 : evt = 14
  · rw [if_pos e14] at h
    repeat' (first | split at h | dsimp only at h)
    all_goals first
      | (simp only [Res.ok.injEq] at h; subst h; rfl)
      | exact Res.noConfusion h
  rw [if_neg e14] at h
  by_cases e15 : evt = 15
  · rw [if_pos e15] at h
    repeat' (first | split at h | dsimp only at h)
    all_goals first
      | (simp only [Res.ok.injEq] at h; subst h; rfl)
      | exact Res.noConfusion h
  rw [if_neg e15] at h
  by_cases e19 : evt = 19
  · rw [if_pos e19] at h
    simp only [Res.ok.injEq] at h
    subst h
    rfl
  rw [if_neg e19] at h
  by_cases e62 : evt = 62
  · rw [if_pos e62] at h
    repeat' (first | split at h | dsimp only at h)
    all_goals first
      | (simp only [Res.ok.injEq] at h; subst h; rfl)
      | exact Res.noConfusion h
  rw [if_neg e62] at h
  by_cases e16 : evt = 16
  · rw [if_pos e16] at h
    simp only [Res.ok.injEq] at h
    subst h
    rfl
  rw [if_neg e16] at h
  simp only [Res.ok.injEq] at h
  subst h
  rfl

/-- The part_000 assembler never touches `h.scanning`, provided the packet
handler does not. -/
theorem pollAux_scanning {hed : Env → HciState → List Nat → HRes}
    (hH : ∀ env st buf out, hed env st buf = .ok out → out.1.scanning = st.scanning) :
    ∀ (bs : List Nat) (env : Env) (st : HciState) (i : Nat) (hbuf : List Nat)
      (out : HciState × Option HciErr × Env),
      (pollAux hed env st i hbuf bs).res = .ok out → out.1.scanning = st.scanning := by
  intro bs
  induction bs with
  | nil =>
    intro env st i hbuf out h
    simp only [pollAux] at h
    simp only [Res.ok.injEq] at h
    subst h
    rfl
  | cons b bs ih =>
    intro env st i hbuf out h
    rw [pollAux_cons] at h
    repeat' split at h
    all_goals try dsimp only at h
    all_goals first
      | exact ih _ _ _ _ _ h
      | exact hH _ _ _ _ h
      | (simp only [Res.ok.injEq] at h; subst h; rfl)

/-- `poll` never touches `h.scanning`, provided the packet handler does
not. -/
theorem poll_scanning {hed : Env → HciState → List Nat → HRes}
    (hH : ∀ env st buf out, hed env st buf = .ok out → out.1.scanning = st.scanning)
    {env : Env} {st : HciState} {out : HciState × Option HciErr × Env}
    (h : (poll hed env st).res = .ok out) : out.1.scanning = st.scanning := by
  unfold poll at h
  rcases hc : env.popChunk with ⟨chunk, env'⟩
  rw [hc] at h
  exact pollAux_scanning hH _ _ _ _ _ _ h

/-- The send-and-wait loop never touches `h.scanning`, provided the packet
handler does not. -/
theorem sendLoop_scanning {hed : Env → HciState → List Nat → HRes}
    (hH : ∀ env st buf out, hed env st buf = .ok out → out.1.scanning = st.scanning)
    (opcode : Nat) :
    ∀ (iters : Nat) (env : Env) (st : HciState)
      (out : HciState × Option HciErr × Env),
      sendLoop hed opcode iters env st = .ok out → out.1.scanning = st.scanning := by
  intro iters
  induction iters with
  | zero => intro env st out h; exact Res.noConfusion h
  | succ k ih =>
    intro env st out h
    unfold sendLoop at h
    by_cases hc : st.cmdCompleteOpcode = opcode
    · rw [if_pos hc] at h
      simp only [Res.ok.injEq] at h
      subst h
      rfl
    · rw [if_neg hc] at h
      rcases hp : poll hed env st with ⟨pres, prem, pe⟩
      rw [hp] at h
      have hpres : (poll hed env st).res = pres := by rw [hp]
      rcases pres with ⟨st1, err1, env1⟩ | _ | _
      · rcases err1 with _ | e
        · rcases hclk : env1.popClock with ⟨elapsed, env2⟩
          simp only [hclk] at h
          have hps : st1.scanning = st.scanning := poll_scanning hH hpres
          split at h
          · simp only [Res.ok.injEq] at h
            subst h
            exact hps
          · exact (ih _ _ _ h).trans hps
        · simp only [Res.ok.injEq] at h
          subst h
          exact poll_scanning hH hpres
      · exact Res.noConfusion h
      · exact Res.noConfusion h

/-- `sendCommandWithParams` assigns only the completion bookkeeping, never
`h.scanning`, provided the packet handler does not. -/
theorem sendCommandWithParams_scanning {hed : Env → HciState → List Nat → HRes}
    (hH : ∀ env st buf out, hed env st buf = .ok out → out.1.scanning = st.scanning)
    {env : Env} {st : HciState} {op : Nat} {params : List Nat}
    {out : HciState × Option HciErr × Env}
    (h : sendCommandWithParams hed env st op params = .ok out) :
    out.1.scanning = st.scanning := by
  unfold sendCommandWithParams at h
  split at h
  · exact Res.noConfusion h
  · rcases hw : env.popWrite with ⟨wok, env'⟩
    rw [hw] at h
    cases wok
    · simp only [Bool.false_eq_true, if_false, Res.ok.injEq] at h
      subst h
      rfl
    · simp only [if_true] at h
      exact sendLoop_scanning hH op (env'.clocks.length + 1) env'
        { st with cmdCompleteOpcode := 0xffff, cmdCompleteStatus := 0xff } out h

/-- The recursive knot never touches `h.scanning` at any fuel. -/
theorem handleEventDataF_scanning :
    ∀ (fuel : Nat) (env : Env) (st : HciState) (buf : List Nat)
      (out : HciState × Option HciErr × Env),
      handleEventDataF fuel env st buf = .ok out → out.1.scanning = st.scanning := by
  intro fuel
  induction fuel with
  | zero => intro env st buf out h; exact Res.noConfusion h
  | succ n ih =>
    intro env st buf out h
    exact handleEventData_scanning
      (fun env' st' out' h' => sendCommandWithParams_scanning ih h') h

/-- C10: `leSetScanEnable` assigns `h.scanning = enabled` before writing
the scan-enable command, and nothing later in the call reassigns it, so
whatever the call returns — success, a transport write error, or the
3-second timeout — the scanning flag equals the requested value; the
assignment is never rolled back on error. -/
theorem scan_enable_flag_not_rolled_back (fuel : Nat) (env : Env)
    (st : HciState) (enabled duplicates : Bool)
    (out : HciState × Option HciErr × Env)
    (h : leSetScanEnable (handleEventDataF fuel) env st enabled duplicates = .ok out) :
    out.1.scanning = enabled := by
  unfold leSetScanEnable at h
  exact sendCommandWithParams_scanning (handleEventDataF_scanning fuel) h

/-- Witness for C10: with an empty environment (write succeeds, no bytes
buffered, clock reads past the timeout) `leSetScanEnable(true, false)`
returns the timeout error, and the scanning flag nevertheless reads
`true`. -/
theorem scan_enable_flag_not_rolled_back_witness :
    (({ initHci with
        cmdCompleteOpcode := 0xffff,
        cmdCompleteStatus := 0xff,
        scanning := true } : HciState), some HciErr.timeout, env0).1.scanning = true :=
  scan_enable_flag_not_rolled_back 1 env0 initHci true false
    ({ initHci with
        cmdCompleteOpcode := 0xffff,
        cmdCompleteStatus := 0xff,
        scanning := true }, some HciErr.timeout, env0)
    (by decide)

/-- C3 (amended): the `Scan` loop of src/gap_nina.go surfaces only
scan-response reports — the opposite of the claim's filter.  A populated
report with `typ ≠ 0x04` is cleared without invoking the callback; with
`typ = 0x04` and `eirLength > 64` it is cleared by the EIR guard; with
`typ = 0x04` and `eirLength ≤ 64`, any non-panicking iteration invokes the
callback and then clears the slot. -/
theorem scan_surfaces_only_scan_response (st : HciState) (b : Bool)
    (hrep : st.advData.reported = true) :
    (st.advData.typ ≠ 0x04 →
      scanStep st b = .ok (.droppedNonScanResponse, clearAdvData st))
    ∧ (st.advData.typ = 0x04 → st.advData.eirLength > 64 →
      scanStep st b = .ok (.droppedEirTooLong, clearAdvData st))
    ∧ (st.advData.typ = 0x04 → st.advData.eirLength ≤ 64 →
      ∀ act st2, scanStep st b = .ok (act, st2) →
        (∃ r, act = ScanAction.callbackInvoked r) ∧ st2 = clearAdvData st) := by
  refine ⟨?_, ?_, ?_⟩
  · intro hty
    unfold scanStep
    rw [if_pos hrep, if_pos hty]
  · intro hty he
    unfold scanStep
    rw [if_pos hrep, if_neg (by rw [hty]; exact fun hc => hc rfl), if_pos he]
  · intro hty he act st2 h
    unfold scanStep at h
    rw [if_pos hrep, if_neg (by rw [hty]; exact fun hc => hc rfl),
      if_neg (by omega)] at h
    rcases hp : parseEIR st.advData.eirData st.advData.eirLength with nm | _ | _
    · rw [hp] at h
      dsimp only at h
      simp only [Res.ok.injEq, Prod.mk.injEq] at h
      exact ⟨⟨_, h.1.symm⟩, h.2.symm⟩
    · rw [hp] at h
      exact Res.noConfusion h
    · rw [hp] at h
      exact Res.noConfusion h

/-- Witness for C3: a populated report with `typ = 0x04` and empty EIR data
makes the iteration invoke the callback and clear the slot. -/
theorem scan_surfaces_only_scan_response_witness :
    (∃ r, ScanAction.callbackInvoked
        { addr := [0, 0, 0, 0, 0, 0], addrType := 0, rssi := 0, localName := [] } =
          ScanAction.callbackInvoked r)
    ∧ clearAdvData stTyp4 = clearAdvData stTyp4 :=
  (scan_surfaces_only_scan_response stTyp4 true (by decide)).2.2 (by decide) (by decide)
    (ScanAction.callbackInvoked
      { addr := [0, 0, 0, 0, 0, 0], addrType := 0, rssi := 0, localName := [] })
    (clearAdvData stTyp4) (by decide)
